import Mathlib

/-!
Verification of the PlantPal core logic: the AI-response normalization
pipeline (analyze API route, `src/unnamed/part_002`, POST handler) and the
local plant record store (`src/utils/storage.ts`).

Modelling conventions:
* JSON values are the inductive `Json` below.  JavaScript numbers are
  modelled as integers (`Int`); the payloads and claims under study only
  involve integral values.  NaN is represented by `none` where a coerced
  number is `Option Int`.
* ISO-8601 date strings are modelled by their epoch-millisecond value
  (`Int`), i.e. by what `new Date(s).getTime()` yields; an absent or empty
  (falsy) date field is `none`.
* Promise-returning storage functions are modelled as pure functions over
  the deserialized collection (`List SavedPlant`); the persistence medium
  (AsyncStorage) appears only where a claim is about it (`StoredBlob`).
* Current time and random id suffixes are passed in as explicit parameters.
-/

/-- JSON values as produced by `JSON.parse`, with numbers modelled as
integers (see module conventions above). -/
inductive Json where
  | null
  | bool (b : Bool)
  | num (n : Int)
  | str (s : String)
  | arr (elems : List Json)
  | obj (fields : List (String × Json))

namespace Json

/-- Property access `o.k` / optional chaining `o?.k`: yields the value of
the first binding of the key on an object, and nothing on any other value. -/
def get? : Json → String → Option Json
  | obj fields, k => (fields.find? (fun p => p.1 = k)).map (fun p => p.2)
  | _, _ => none

/-- JavaScript truthiness of a value. -/
def truthy : Json → Bool
  | null => false
  | bool b => b
  | num n => n != 0
  | str s => s != ""
  | arr _ => true
  | obj _ => true

/-- `Array.isArray`. -/
def isArray : Json → Bool
  | arr _ => true
  | _ => false

end Json

/-- The strict-equality test `plantData.isPlant === false` on a
possibly-absent field value. -/
def isExplicitFalse : Option Json → Bool
  | some (Json.bool false) => true
  | _ => false

/-- The defaulting idiom `v || d` applied to a possibly-absent field value:
an absent or falsy value is replaced by the default, any truthy value is
kept as-is (regardless of its type). -/
def jsOr (v : Option Json) (d : Json) : Json :=
  match v with
  | some j => if j.truthy then j else d
  | none => d

/-- JavaScript `ToNumber` coercion on the values this pipeline can see,
with `none` standing for NaN.  Numbers are already integers in this model;
a string is trimmed and read as an integer (`""` coerces to 0).  The
array/object-to-primitive corner (coercion via string round-trip) is not
modelled; no payload in this development exercises it. -/
def toNumber : Json → Option Int
  | Json.null => some 0
  | Json.bool b => some (if b then 1 else 0)
  | Json.num n => some n
  | Json.str s => if s.trim = "" then some 0 else s.trim.toInt?
  | Json.arr _ => none
  | Json.obj _ => none

/-- The numeric-field normalization expression from the analyze route
(`src/unnamed/part_002` line 1251/1254):
`Math.max(1, Math.min(100, plantData.confidence || 50))`.
`none` in the result is NaN (NaN propagates through `Math.min`/`Math.max`). -/
def scoreOf (v : Option Json) : Option Int :=
  match v with
  | none => some 50
  | some j =>
    if j.truthy then (toNumber j).map (fun n => max 1 (min 100 n))
    else some 50

/-- The `quickFacts` sub-object of a normalized analysis result.  Each field
keeps the raw (possibly non-string) truthy value, per the `||` idiom. -/
structure QuickFacts where
  origin : Json
  difficulty : Json
  growthRate : Json
  toxicity : Json
  lightRequirement : Json
  waterFrequency : Json
  humidity : Json
  temperature : Json

/-- The `healthInsights` sub-object of a normalized analysis result. -/
structure HealthInsights where
  overallCondition : Json
  strengths : Json
  concerns : Json
  recommendations : Json

/-- The normalized plant-analysis record built by the analyze route
(`results` object, `src/unnamed/part_002` lines 1248-1287). -/
structure AnalysisResult where
  plantName : Json
  commonName : Json
  confidence : Option Int
  diagnosis : Json
  healthStatus : Json
  healthScore : Option Int
  careAdvice : Json
  quickFacts : QuickFacts
  healthInsights : HealthInsights
  identificationId : String
  timestamp : String

/-- The `objectInfo` object built on the `isPlant === false` branch
(`src/unnamed/part_002` lines 1232-1244). -/
structure ObjectInfo where
  objectType : Json
  objectName : Json
  explanation : Json
  whyNotPlant : Json

/-- Outcome of normalizing a successfully parsed payload: either the
NOT_A_PLANT response (isPlant strictly false) or a plant analysis result. -/
inductive NormalizeResult where
  | notAPlant (info : ObjectInfo)
  | plant (r : AnalysisResult)

/-- The fixed 4-item `careAdvice` fallback list from the analyze route. -/
def careAdviceFallback : List Json :=
  [Json.str "Provide appropriate lighting for the species",
   Json.str "Water when the top inch of soil feels dry",
   Json.str "Ensure good drainage to prevent root rot",
   Json.str "Monitor for pests and diseases regularly"]

/-- `careAdvice` defaulting (`src/unnamed/part_002` lines 1255-1262):
`Array.isArray(x) && x.length > 0 ? x : fallback`. -/
def careAdviceOf (v : Option Json) : Json :=
  match v with
  | some (Json.arr xs) => if xs.length > 0 then Json.arr xs else Json.arr careAdviceFallback
  | _ => Json.arr careAdviceFallback

/-- `healthInsights` list defaulting (`src/unnamed/part_002` lines
1274-1283): `Array.isArray(x) ? x : [fallbackItem]` — note there is no
non-emptiness check here, unlike `careAdvice`. -/
def insightListOf (v : Option Json) (fallbackItem : String) : Json :=
  match v with
  | some (Json.arr xs) => Json.arr xs
  | _ => Json.arr [Json.str fallbackItem]

/-- Normalization of a parsed payload, as performed by the POST handler of
the analyze route (`src/unnamed/part_002` lines 1232-1287).
`identificationId` and `timestamp` are derived from the current time, which
is passed in (`nowMs` = `Date.now()`, `isoNow` = `new Date().toISOString()`). -/
def normalizePayload (p : Json) (nowMs : Int) (isoNow : String) : NormalizeResult :=
  if isExplicitFalse (p.get? "isPlant") then
    NormalizeResult.notAPlant
      { objectType := jsOr (p.get? "objectType") (Json.str "unknown object")
        objectName := jsOr (p.get? "objectName") (Json.str "unidentified object")
        explanation := jsOr (p.get? "explanation") (Json.str "This object cannot be identified.")
        whyNotPlant := jsOr (p.get? "whyNotPlant")
          (Json.str "PlantPal is designed to help you care for plants, flowers, and trees. Please take a photo of a botanical specimen instead.") }
  else
    NormalizeResult.plant
      { plantName := jsOr (p.get? "plantName") (Json.str "Unknown Plant")
        commonName := jsOr (p.get? "commonName") (Json.str "Unidentified Species")
        confidence := scoreOf (p.get? "confidence")
        diagnosis := jsOr (p.get? "diagnosis")
          (Json.str "Health status could not be determined from this image")
        healthStatus := jsOr (p.get? "healthStatus") (Json.str "unknown")
        healthScore := scoreOf (p.get? "healthScore")
        careAdvice := careAdviceOf (p.get? "careAdvice")
        quickFacts :=
          { origin := jsOr ((p.get? "quickFacts").bind (fun q => q.get? "origin")) (Json.str "Unknown")
            difficulty := jsOr ((p.get? "quickFacts").bind (fun q => q.get? "difficulty")) (Json.str "Unknown")
            growthRate := jsOr ((p.get? "quickFacts").bind (fun q => q.get? "growthRate")) (Json.str "Unknown")
            toxicity := jsOr ((p.get? "quickFacts").bind (fun q => q.get? "toxicity")) (Json.str "Unknown - keep away from pets")
            lightRequirement := jsOr ((p.get? "quickFacts").bind (fun q => q.get? "lightRequirement")) (Json.str "Bright, indirect light")
            waterFrequency := jsOr ((p.get? "quickFacts").bind (fun q => q.get? "waterFrequency")) (Json.str "When soil is dry")
            humidity := jsOr ((p.get? "quickFacts").bind (fun q => q.get? "humidity")) (Json.str "40-60%")
            temperature := jsOr ((p.get? "quickFacts").bind (fun q => q.get? "temperature")) (Json.str "65-75°F") }
        healthInsights :=
          { overallCondition := jsOr ((p.get? "healthInsights").bind (fun q => q.get? "overallCondition"))
              (Json.str "Unable to assess condition from this image")
            strengths := insightListOf ((p.get? "healthInsights").bind (fun q => q.get? "strengths"))
              "Plant appears to be surviving"
            concerns := insightListOf ((p.get? "healthInsights").bind (fun q => q.get? "concerns"))
              "Monitor for any changes"
            recommendations := insightListOf ((p.get? "healthInsights").bind (fun q => q.get? "recommendations"))
              "Continue regular care routine" }
        identificationId := "plant_" ++ toString nowMs
        timestamp := isoNow }

/-! ## JSON extraction (analyze route, `src/unnamed/part_002` lines 1210-1229)

The route matches the raw AI text against the greedy regex `/\{[\s\S]*\}/`
— i.e. it takes the span from the first opening brace to the last closing
brace of the whole string (the regex can only fail when no closing brace
follows the first opening brace) — and feeds the span to `JSON.parse`.
`JSON.parse` is a platform builtin, so it enters the model as a parameter
`parse`; a `none` result of `parse` is a thrown parse error. -/

/-- The text matched by the greedy regex `/\{[\s\S]*\}/`: everything from
the first `{` to the last `}`, or `none` when the regex does not match. -/
def braceSpan (raw : String) : Option String :=
  match ((raw.toList.dropWhile (fun c => c ≠ '\x7b')).reverse.dropWhile
      (fun c => c ≠ '\x7d')).reverse with
  | [] => none
  | cs => some (String.mk cs)

/-- The JSON-extraction step of the analyze route: match the brace span and
parse it; any failure (no regex match, or `parse` throwing) is the hard
MalformedResponse failure (`ANALYSIS_FAILED`), modelled as `none`. -/
def extractJson (parse : String → Option Json) (raw : String) : Option Json :=
  match braceSpan raw with
  | some s => parse s
  | none => none

/-! ## The record store (`src/utils/storage.ts`)

`SavedPlant` mirrors the TypeScript interface field by field; ISO date
strings in `lastWatered`/`lastFertilized` are modelled by epoch
milliseconds, and an absent or empty (falsy) optional field is `none`. -/

/-- The typed `quickFacts` object of a stored plant. -/
structure SavedQuickFacts where
  origin : String
  difficulty : String
  growthRate : String
  toxicity : String
  lightRequirement : String
  waterFrequency : String
  humidity : String
  temperature : String
deriving Repr, DecidableEq

/-- The `SavedPlant` interface of `src/utils/storage.ts`. -/
structure SavedPlant where
  id : String
  name : String
  commonName : String
  customName : Option String
  imageUri : String
  confidence : Int
  healthStatus : String
  healthScore : Int
  diagnosis : String
  careAdvice : List String
  quickFacts : SavedQuickFacts
  identificationId : String
  timestamp : String
  dateAdded : String
  lastWatered : Option Int
  lastFertilized : Option Int
  notes : Option String
deriving Repr, DecidableEq

/-- `Omit<SavedPlant, 'id' | 'dateAdded'>`: the draft passed to `savePlant`. -/
structure PlantDraft where
  name : String
  commonName : String
  customName : Option String
  imageUri : String
  confidence : Int
  healthStatus : String
  healthScore : Int
  diagnosis : String
  careAdvice : List String
  quickFacts : SavedQuickFacts
  identificationId : String
  timestamp : String
  lastWatered : Option Int
  lastFertilized : Option Int
  notes : Option String
deriving Repr, DecidableEq

/-- `Partial<SavedPlant>`: the update object passed to `updatePlant`.  A
`none` outer layer means the field is not present in the object (object
spread then leaves the existing field untouched). -/
structure PlantUpdate where
  id : Option String
  name : Option String
  commonName : Option String
  customName : Option (Option String)
  imageUri : Option String
  confidence : Option Int
  healthStatus : Option String
  healthScore : Option Int
  diagnosis : Option String
  careAdvice : Option (List String)
  quickFacts : Option SavedQuickFacts
  identificationId : Option String
  timestamp : Option String
  dateAdded : Option String
  lastWatered : Option (Option Int)
  lastFertilized : Option (Option Int)
  notes : Option (Option String)
deriving Repr, DecidableEq

/-- The update object with no fields present (`{}`). -/
def PlantUpdate.empty : PlantUpdate :=
  ⟨none, none, none, none, none, none, none, none, none, none, none, none,
   none, none, none, none, none⟩

/-- The spread merge `{ ...existing, ...updates }` of `updatePlant`. -/
def mergePlant (p : SavedPlant) (u : PlantUpdate) : SavedPlant :=
  { id := u.id.getD p.id
    name := u.name.getD p.name
    commonName := u.commonName.getD p.commonName
    customName := u.customName.getD p.customName
    imageUri := u.imageUri.getD p.imageUri
    confidence := u.confidence.getD p.confidence
    healthStatus := u.healthStatus.getD p.healthStatus
    healthScore := u.healthScore.getD p.healthScore
    diagnosis := u.diagnosis.getD p.diagnosis
    careAdvice := u.careAdvice.getD p.careAdvice
    quickFacts := u.quickFacts.getD p.quickFacts
    identificationId := u.identificationId.getD p.identificationId
    timestamp := u.timestamp.getD p.timestamp
    dateAdded := u.dateAdded.getD p.dateAdded
    lastWatered := u.lastWatered.getD p.lastWatered
    lastFertilized := u.lastFertilized.getD p.lastFertilized
    notes := u.notes.getD p.notes }

/-- The id assigned by `savePlant`:
`` `plant_${Date.now()}_${Math.random().toString(36).substr(2, 9)}` ``. -/
def mkPlantId (nowMs : Int) (rand : String) : String :=
  "plant_" ++ toString nowMs ++ "_" ++ rand

/-- Completing a draft into a `SavedPlant` by adding `id` and `dateAdded`
(the object spread `{ ...plantData, id, dateAdded }` of `savePlant`). -/
def PlantDraft.withIdentity (d : PlantDraft) (id dateAdded : String) : SavedPlant :=
  { id := id
    name := d.name
    commonName := d.commonName
    customName := d.customName
    imageUri := d.imageUri
    confidence := d.confidence
    healthStatus := d.healthStatus
    healthScore := d.healthScore
    diagnosis := d.diagnosis
    careAdvice := d.careAdvice
    quickFacts := d.quickFacts
    identificationId := d.identificationId
    timestamp := d.timestamp
    dateAdded := dateAdded
    lastWatered := d.lastWatered
    lastFertilized := d.lastFertilized
    notes := d.notes }

namespace PlantStorage

/-- `savePlant` (`src/utils/storage.ts` lines 35-51): build the new record
from the draft plus a fresh id and `dateAdded`, prepend it to the loaded
collection, persist, and return it.  `nowMs`/`rand`/`isoNow` stand for
`Date.now()`, the random suffix and `new Date().toISOString()`.  Returns
the created record and the persisted collection. -/
def savePlant (plants : List SavedPlant) (draft : PlantDraft)
    (nowMs : Int) (rand : String) (isoNow : String) :
    SavedPlant × List SavedPlant :=
  let newPlant := draft.withIdentity (mkPlantId nowMs rand) isoNow
  (newPlant, newPlant :: plants)

/-- `getPlantById` (`src/utils/storage.ts` lines 63-71):
`plants.find(plant => plant.id === id) || null`. -/
def getPlantById (plants : List SavedPlant) (id : String) : Option SavedPlant :=
  plants.find? (fun plant => plant.id = id)

/-- `updatePlant` (`src/utils/storage.ts` lines 73-89): locate the record by
`findIndex`; when absent return null without persisting; otherwise spread-
merge the updates into it, write it back at the same index, persist, and
return it.  Returns the result and the resulting collection.  (The inner
out-of-bounds arm is unreachable: `findIndex` only returns in-bounds
indices.) -/
def updatePlant (plants : List SavedPlant) (id : String) (updates : PlantUpdate) :
    Option SavedPlant × List SavedPlant :=
  match plants.findIdx? (fun plant => plant.id = id) with
  | none => (none, plants)
  | some plantIndex =>
    match plants[plantIndex]? with
    | none => (none, plants)
    | some p =>
      let updatedPlant := mergePlant p updates
      (some updatedPlant, plants.set plantIndex updatedPlant)

/-- `deletePlant` (`src/utils/storage.ts` lines 91-102): filter the record
out and persist the rest. -/
def deletePlant (plants : List SavedPlant) (id : String) : List SavedPlant :=
  plants.filter (fun plant => plant.id ≠ id)

end PlantStorage

/-- The record returned by `getPlantStats`.  Counts are natural numbers;
`averageHealthScore` is the (integral) result of `Math.round`. -/
structure PlantStats where
  totalPlants : Nat
  healthyPlants : Nat
  plantsNeedingCare : Nat
  plantsNeedingWater : Nat
  averageHealthScore : Int
deriving Repr, DecidableEq

/-- `toLowerCase()`, modelled as a per-character ASCII lowercase map (the
statuses this program compares are ASCII); written via `List.map` so that it
evaluates by reduction. -/
def jsToLower (s : String) : String := String.mk (s.toList.map Char.toLower)

/-- `Math.round` on an exact rational: round half toward positive infinity,
i.e. the floor of `q + 1/2`, written on the rational's numerator and
denominator so that it evaluates by reduction. -/
def jsRound (q : ℚ) : Int := (q + 1 / 2).num.fdiv (q + 1 / 2).den

/-- The watering filter of `getPlantStats` (`src/utils/storage.ts` lines
134-139): a plant needs water when `lastWatered` is falsy, or when
`Math.floor((now - lastWatered) / (1000*60*60*24)) >= 7`.  `Int.fdiv` is
floor division, matching `Math.floor` of the exact quotient. -/
def needsWater (now : Int) (plant : SavedPlant) : Bool :=
  match plant.lastWatered with
  | none => true
  | some lastWatered => Int.fdiv (now - lastWatered) (1000 * 60 * 60 * 24) ≥ 7

namespace PlantStorage

/-- `getPlantStats` (`src/utils/storage.ts` lines 104-160): early-return of
all zeroes on the empty collection, otherwise filter-based counts and the
rounded mean of `healthScore`.  `now` stands for `new Date()`. -/
def getPlantStats (plants : List SavedPlant) (now : Int) : PlantStats :=
  let totalPlants := plants.length
  if totalPlants = 0 then
    { totalPlants := 0
      healthyPlants := 0
      plantsNeedingCare := 0
      plantsNeedingWater := 0
      averageHealthScore := 0 }
  else
    let healthyPlants := (plants.filter (fun plant =>
      jsToLower plant.healthStatus = "healthy" || plant.healthScore ≥ 80)).length
    let plantsNeedingCare := (plants.filter (fun plant =>
      jsToLower plant.healthStatus = "poor" || plant.healthScore < 60)).length
    let plantsNeedingWater := (plants.filter (needsWater now)).length
    let averageHealthScore : ℚ :=
      ((plants.foldl (fun sum plant => sum + plant.healthScore) 0 : Int) : ℚ) / (totalPlants : ℚ)
    { totalPlants := totalPlants
      healthyPlants := healthyPlants
      plantsNeedingCare := plantsNeedingCare
      plantsNeedingWater := plantsNeedingWater
      averageHealthScore := jsRound averageHealthScore }

end PlantStorage

/-! ## The persistence medium, for `getAllPlants` (`src/utils/storage.ts`
lines 53-61).

`AsyncStorage.getItem` yields `null` when nothing was ever stored under the
key, a string otherwise, and may reject on a read fault; `JSON.parse` may
throw on a corrupt string.  `StoredBlob` abstracts the read-plus-parse
outcome into its three observable cases. -/

/-- Outcome of reading and deserializing the persisted blob. -/
inductive StoredBlob where
  | absent
  | corrupt
  | stored (plants : List SavedPlant)

/-- The hard storage failure of the spec's error taxonomy. -/
inductive PersistenceError where
  | persistenceError
deriving Repr, DecidableEq

namespace PlantStorage

/-- `getAllPlants` (`src/utils/storage.ts` lines 53-61): return the parsed
collection, `[]` when nothing is stored; any thrown error (read fault or
parse failure) is caught and `[]` is returned — the catch block is
`console.error(...); return []`, so no error ever escapes. -/
def getAllPlants : StoredBlob → Except PersistenceError (List SavedPlant)
  | StoredBlob.absent => Except.ok []
  | StoredBlob.corrupt => Except.ok []
  | StoredBlob.stored plants => Except.ok plants

end PlantStorage

/-! ## Observers on normalization results -/

namespace NormalizeResult

/-- The `confidence` of a plant-analysis outcome, if any. -/
def getConfidence : NormalizeResult → Option Int
  | plant r => r.confidence
  | notAPlant _ => none

/-- The `healthScore` of a plant-analysis outcome, if any. -/
def getHealthScore : NormalizeResult → Option Int
  | plant r => r.healthScore
  | notAPlant _ => none

/-- The `careAdvice` of a plant-analysis outcome, if any. -/
def getCareAdvice : NormalizeResult → Option Json
  | plant r => some r.careAdvice
  | notAPlant _ => none

/-- The `healthInsights.strengths` of a plant-analysis outcome, if any. -/
def getStrengths : NormalizeResult → Option Json
  | plant r => some r.healthInsights.strengths
  | notAPlant _ => none

/-- The `objectName` of a NOT_A_PLANT outcome, if any. -/
def getObjectName : NormalizeResult → Option Json
  | plant _ => none
  | notAPlant info => some info.objectName

end NormalizeResult

/-! ## Helper lemmas -/

/-- `jsRound` is rounding to the nearest integer (halves up), i.e.
Mathlib's `round`. -/
theorem jsRound_eq_round (q : ℚ) : jsRound q = round q := by
  rw [round_eq, jsRound, Rat.floor_def]
  exact Int.fdiv_eq_ediv _ (Int.ofNat_nonneg _)

/-- The clamp `max 1 (min 100 n)` lands in `[1, 100]`. -/
theorem clamp_mem_range (n : Int) : 1 ≤ max 1 (min 100 n) ∧ max 1 (min 100 n) ≤ 100 :=
  ⟨le_max_left 1 _, max_le (by norm_num) (min_le_left 100 n)⟩

/-- Whatever integer `scoreOf` yields lies in `[1, 100]` (a NaN outcome
yields no integer). -/
theorem scoreOf_mem_range (v : Option Json) (n : Int) (h : scoreOf v = some n) :
    1 ≤ n ∧ n ≤ 100 := by
  match v with
  | none =>
    simp only [scoreOf] at h
    cases h
    norm_num
  | some j =>
    simp only [scoreOf] at h
    by_cases ht : j.truthy
    · rw [if_pos ht] at h
      match hn : toNumber j with
      | none => rw [hn] at h; cases h
      | some m =>
        rw [hn] at h
        simp only [Option.map_some'] at h
        cases h
        exact clamp_mem_range m
    · rw [if_neg ht] at h
      cases h
      norm_num

/-- Inversion for the plant branch: a plant outcome means the discriminator
was not strictly `false`, and each interesting field of the result is the
corresponding defaulting expression over the payload. -/
theorem plant_branch_fields (p : Json) (nowMs : Int) (isoNow : String) (r : AnalysisResult)
    (h : normalizePayload p nowMs isoNow = NormalizeResult.plant r) :
    isExplicitFalse (p.get? "isPlant") = false ∧
    r.confidence = scoreOf (p.get? "confidence") ∧
    r.healthScore = scoreOf (p.get? "healthScore") ∧
    r.careAdvice = careAdviceOf (p.get? "careAdvice") ∧
    r.healthInsights.strengths =
      insightListOf ((p.get? "healthInsights").bind (fun q => q.get? "strengths"))
        "Plant appears to be surviving" ∧
    r.healthInsights.concerns =
      insightListOf ((p.get? "healthInsights").bind (fun q => q.get? "concerns"))
        "Monitor for any changes" ∧
    r.healthInsights.recommendations =
      insightListOf ((p.get? "healthInsights").bind (fun q => q.get? "recommendations"))
        "Continue regular care routine" := by
  unfold normalizePayload at h
  by_cases hf : isExplicitFalse (p.get? "isPlant") = true
  · rw [if_pos hf] at h
    exact (NormalizeResult.noConfusion h)
  · rw [if_neg hf] at h
    injection h with h2
    subst h2
    exact ⟨by simpa using hf, rfl, rfl, rfl, rfl, rfl, rfl⟩

/-- Inversion for the non-plant branch: a NOT_A_PLANT outcome means the
discriminator was strictly `false`, and each `objectInfo` field is the
`||`-defaulting of the corresponding payload field. -/
theorem notAPlant_branch_fields (p : Json) (nowMs : Int) (isoNow : String) (info : ObjectInfo)
    (h : normalizePayload p nowMs isoNow = NormalizeResult.notAPlant info) :
    isExplicitFalse (p.get? "isPlant") = true ∧
    info.objectType = jsOr (p.get? "objectType") (Json.str "unknown object") ∧
    info.objectName = jsOr (p.get? "objectName") (Json.str "unidentified object") ∧
    info.explanation = jsOr (p.get? "explanation") (Json.str "This object cannot be identified.") ∧
    info.whyNotPlant = jsOr (p.get? "whyNotPlant")
      (Json.str "PlantPal is designed to help you care for plants, flowers, and trees. Please take a photo of a botanical specimen instead.") := by
  unfold normalizePayload at h
  by_cases hf : isExplicitFalse (p.get? "isPlant") = true
  · rw [if_pos hf] at h
    injection h with h2
    subst h2
    exact ⟨hf, rfl, rfl, rfl, rfl⟩
  · rw [if_neg hf] at h
    exact (NormalizeResult.noConfusion h)

/-- C2 counterexample: the claim "every value below 1 (including 0 and
negatives) becomes 1" fails at 0 — a payload with `confidence: 0` is falsy
under `||`, so it normalizes to the fallback 50, not to 1. -/
theorem score_zero_becomes_fifty :
    NormalizeResult.getConfidence
      (normalizePayload (Json.obj [("confidence", Json.num 0)]) 0 "") = some 50 ∧
    (50 : Int) ≠ 1 := ⟨rfl, by norm_num⟩

/-- C2 amended: on the plant path, each of `confidence` and `healthScore`
is normalized by `max(1, min(100, value || 50))`: an absent value or a
numeric 0 becomes the fallback 50 (0 is falsy, so it is never clamped to 1);
any other numeric value is clamped into `[1, 100]`, negatives becoming 1 and
values above 100 becoming 100, with no integer coercion applied. -/
theorem score_normalization_amended :
    (scoreOf none = some 50) ∧
    (scoreOf (some (Json.num 0)) = some 50) ∧
    (∀ n : Int, n ≠ 0 → scoreOf (some (Json.num n)) = some (max 1 (min 100 n))) ∧
    (∀ n : Int, n < 0 → scoreOf (some (Json.num n)) = some 1) ∧
    (∀ n : Int, 100 < n → scoreOf (some (Json.num n)) = some 100) ∧
    (∀ (p : Json) (nowMs : Int) (isoNow : String) (r : AnalysisResult),
      normalizePayload p nowMs isoNow = NormalizeResult.plant r →
      r.confidence = scoreOf (p.get? "confidence") ∧
      r.healthScore = scoreOf (p.get? "healthScore")) := by
  refine ⟨rfl, rfl, ?_, ?_, ?_, ?_⟩
  · intro n hn
    simp [scoreOf, Json.truthy, toNumber, hn]
  · intro n hn
    have hne : n ≠ 0 := by omega
    simp only [scoreOf, Json.truthy, toNumber, bne_iff_ne, ne_eq, hne,
      not_false_eq_true, if_true, Option.map_some']
    exact congrArg some (by omega)
  · intro n hn
    have hne : n ≠ 0 := by omega
    simp only [scoreOf, Json.truthy, toNumber, bne_iff_ne, ne_eq, hne,
      not_false_eq_true, if_true, Option.map_some']
    exact congrArg some (by omega)
  · intro p nowMs isoNow r h
    have hf := plant_branch_fields p nowMs isoNow r h
    exact ⟨hf.2.1, hf.2.2.1⟩

/-- Witness for the amended C2: a negative value clamps to 1, an oversized
value clamps to 100, and a concrete payload with `confidence: 7` keeps 7
through the full normalizer. -/
theorem score_normalization_amended_witness :
    scoreOf (some (Json.num (-5))) = some 1 ∧
    scoreOf (some (Json.num 150)) = some 100 ∧
    NormalizeResult.getConfidence
      (normalizePayload (Json.obj [("confidence", Json.num 7)]) 0 "") = some 7 := by
  refine ⟨?_, ?_, ?_⟩
  · exact score_normalization_amended.2.2.2.1 (-5) (by norm_num)
  · exact score_normalization_amended.2.2.2.2.1 150 (by norm_num)
  · have h := (score_normalization_amended.2.2.2.2.2
      (Json.obj [("confidence", Json.num 7)]) 0 "" _ rfl).1
    exact rfl

/-- Whatever `careAdvice` defaulting yields is a non-empty array: a provided
array is used only when non-empty, and the fallback has four items. -/
theorem careAdviceOf_nonempty (v : Option Json) :
    ∃ xs, careAdviceOf v = Json.arr xs ∧ xs ≠ [] := by
  match v with
  | none => exact ⟨careAdviceFallback, rfl, by simp [careAdviceFallback]⟩
  | some Json.null | some (Json.bool _) | some (Json.num _)
  | some (Json.str _) | some (Json.obj _) =>
    exact ⟨careAdviceFallback, rfl, by simp [careAdviceFallback]⟩
  | some (Json.arr xs) =>
    cases xs with
    | nil => exact ⟨careAdviceFallback, rfl, by simp [careAdviceFallback]⟩
    | cons a rest => exact ⟨a :: rest, by simp [careAdviceOf], by simp⟩

/-- C3 counterexample: a payload providing `healthInsights.strengths: []`
normalizes to an *empty* `strengths` sequence — the healthInsights lists are
only checked with `Array.isArray`, never for non-emptiness — so the claimed
"no normalized record ever contains an empty sequence" fails. -/
theorem empty_strengths_kept :
    NormalizeResult.getStrengths
      (normalizePayload
        (Json.obj [("healthInsights", Json.obj [("strengths", Json.arr [])])]) 0 "")
      = some (Json.arr []) ∧
    some (Json.arr []) ≠ some (Json.arr [Json.str "Plant appears to be surviving"]) := by
  refine ⟨rfl, by simp⟩

/-- C3 amended: `careAdvice` is substituted by its 4-item fallback unless
the provided value is a *non-empty* array (of anything — elements are not
checked to be strings), so normalized `careAdvice` is never empty; the
three `healthInsights` lists (`strengths`, `concerns`, `recommendations`)
fall back to their one-element default only when the provided value is not
an array at all — a provided *empty* array is kept as-is, so those three
sequences can be empty in a normalized record. -/
theorem list_defaulting_amended :
    (∀ (p : Json) (nowMs : Int) (isoNow : String) (r : AnalysisResult),
      normalizePayload p nowMs isoNow = NormalizeResult.plant r →
      (∃ xs, r.careAdvice = Json.arr xs ∧ xs ≠ []) ∧
      r.healthInsights.strengths =
        insightListOf ((p.get? "healthInsights").bind (fun q => q.get? "strengths"))
          "Plant appears to be surviving" ∧
      r.healthInsights.concerns =
        insightListOf ((p.get? "healthInsights").bind (fun q => q.get? "concerns"))
          "Monitor for any changes" ∧
      r.healthInsights.recommendations =
        insightListOf ((p.get? "healthInsights").bind (fun q => q.get? "recommendations"))
          "Continue regular care routine") ∧
    (∀ xs : List Json, xs ≠ [] → careAdviceOf (some (Json.arr xs)) = Json.arr xs) ∧
    (∀ v : Option Json, (∀ xs, v ≠ some (Json.arr xs)) →
      careAdviceOf v = Json.arr careAdviceFallback) ∧
    (careAdviceOf (some (Json.arr [])) = Json.arr careAdviceFallback) ∧
    (∀ (fb : String) (xs : List Json), insightListOf (some (Json.arr xs)) fb = Json.arr xs) ∧
    (∀ (fb : String) (v : Option Json), (∀ xs, v ≠ some (Json.arr xs)) →
      insightListOf v fb = Json.arr [Json.str fb]) := by
  refine ⟨?_, ?_, ?_, rfl, ?_, ?_⟩
  · intro p nowMs isoNow r h
    have hf := plant_branch_fields p nowMs isoNow r h
    refine ⟨?_, hf.2.2.2.2.1, hf.2.2.2.2.2.1, hf.2.2.2.2.2.2⟩
    rw [hf.2.2.2.1]
    exact careAdviceOf_nonempty _
  · intro xs hxs
    cases xs with
    | nil => exact absurd rfl hxs
    | cons a rest => simp [careAdviceOf]
  · intro v hv
    match v with
    | none => rfl
    | some Json.null | some (Json.bool _) | some (Json.num _)
    | some (Json.str _) | some (Json.obj _) => rfl
    | some (Json.arr xs) => exact absurd rfl (hv xs)
  · intro fb xs
    rfl
  · intro fb v hv
    match v with
    | none => rfl
    | some Json.null | some (Json.bool _) | some (Json.num _)
    | some (Json.str _) | some (Json.obj _) => rfl
    | some (Json.arr xs) => exact absurd rfl (hv xs)

/-- Witness for the amended C3 at concrete inputs: a provided singleton
`careAdvice` is kept, a non-array falls back, an absent insight list falls
back to its one-element default, and a fully-defaulted payload yields
non-empty `careAdvice`. -/
theorem list_defaulting_amended_witness :
    careAdviceOf (some (Json.arr [Json.str "Water daily"])) = Json.arr [Json.str "Water daily"] ∧
    careAdviceOf (some (Json.str "x")) = Json.arr careAdviceFallback ∧
    insightListOf none "Monitor for any changes" = Json.arr [Json.str "Monitor for any changes"] ∧
    (∃ (r : AnalysisResult) (xs : List Json),
      normalizePayload (Json.obj []) 0 "" = NormalizeResult.plant r ∧
      r.careAdvice = Json.arr xs ∧ xs ≠ []) := by
  refine ⟨?_, ?_, ?_, ?_⟩
  · exact list_defaulting_amended.2.1 [Json.str "Water daily"] (by simp)
  · exact list_defaulting_amended.2.2.1 (some (Json.str "x")) (fun xs => by simp)
  · exact list_defaulting_amended.2.2.2.2.2 "Monitor for any changes" none (fun xs => by simp)
  · obtain ⟨⟨xs, hx, hne⟩, -⟩ := list_defaulting_amended.1 (Json.obj []) 0 "" _ rfl
    exact ⟨_, xs, rfl, hx, hne⟩

/-- C8 counterexample: with `isPlant: false` and `objectName: 42` (a
number, hence not a string), the code keeps the truthy value 42 as-is in
`objectInfo.objectName` instead of substituting the fallback string, so the
claimed "defaulted if missing, non-string, or empty" fails for non-string
truthy values. -/
theorem nonstring_objectName_kept :
    NormalizeResult.getObjectName
      (normalizePayload
        (Json.obj [("isPlant", Json.bool false), ("objectName", Json.num 42)]) 0 "")
      = some (Json.num 42) ∧
    Json.num 42 ≠ Json.str "unidentified object" := by
  refine ⟨rfl, by simp⟩

/-- C8 amended: normalization takes the non-plant path exactly when
`isPlant` is present and strictly `false` (any other value, including a
missing field, takes the plant-analysis path); each `objectInfo` field is
the `||`-defaulting of the provided value — the fixed fallback string when
the field is missing or falsy (empty string, 0, `false`, `null`), and the
provided value unchanged whenever it is truthy, even when it is not a
string. -/
theorem nonplant_defaulting_amended :
    (∀ (p : Json) (nowMs : Int) (isoNow : String),
      isExplicitFalse (p.get? "isPlant") = false →
      ∃ r, normalizePayload p nowMs isoNow = NormalizeResult.plant r) ∧
    (∀ (p : Json) (nowMs : Int) (isoNow : String) (info : ObjectInfo),
      normalizePayload p nowMs isoNow = NormalizeResult.notAPlant info →
      isExplicitFalse (p.get? "isPlant") = true ∧
      info.objectType = jsOr (p.get? "objectType") (Json.str "unknown object") ∧
      info.objectName = jsOr (p.get? "objectName") (Json.str "unidentified object") ∧
      info.explanation = jsOr (p.get? "explanation") (Json.str "This object cannot be identified.") ∧
      info.whyNotPlant = jsOr (p.get? "whyNotPlant")
        (Json.str "PlantPal is designed to help you care for plants, flowers, and trees. Please take a photo of a botanical specimen instead.")) ∧
    (∀ d : Json, jsOr none d = d) ∧
    (∀ (j d : Json), j.truthy = false → jsOr (some j) d = d) ∧
    (∀ (j d : Json), j.truthy = true → jsOr (some j) d = j) := by
  refine ⟨?_, notAPlant_branch_fields, fun d => rfl, ?_, ?_⟩
  · intro p nowMs isoNow hf
    unfold normalizePayload
    rw [hf]
    simp
  · intro j d hj
    simp [jsOr, hj]
  · intro j d hj
    simp [jsOr, hj]

/-- Witness for the amended C8: `isPlant: true` takes the plant path, a
falsy empty string is defaulted, and a truthy non-string is kept. -/
theorem nonplant_defaulting_amended_witness :
    (∃ r, normalizePayload (Json.obj [("isPlant", Json.bool true)]) 0 ""
      = NormalizeResult.plant r) ∧
    jsOr (some (Json.str "")) (Json.str "unknown object") = Json.str "unknown object" ∧
    jsOr (some (Json.num 42)) (Json.str "unidentified object") = Json.num 42 ∧
    (isExplicitFalse ((Json.obj [("isPlant", Json.bool false)]).get? "isPlant") = true ∧
      (∃ info, normalizePayload (Json.obj [("isPlant", Json.bool false)]) 0 ""
        = NormalizeResult.notAPlant info)) := by
  refine ⟨?_, ?_, ?_, ?_, ⟨_, rfl⟩⟩
  · exact nonplant_defaulting_amended.1 (Json.obj [("isPlant", Json.bool true)]) 0 "" rfl
  · exact nonplant_defaulting_amended.2.2.2.1 (Json.str "") (Json.str "unknown object") rfl
  · exact nonplant_defaulting_amended.2.2.2.2 (Json.num 42) (Json.str "unidentified object") rfl
  · exact (nonplant_defaulting_amended.2.1
      (Json.obj [("isPlant", Json.bool false)]) 0 "" _ rfl).1

/-- The range invariant claimed for `confidence` and `healthScore`. -/
def scoreInRange (n : Int) : Prop := 1 ≤ n ∧ n ≤ 100

/-- A concrete draft record, used as a test fixture. -/
def sampleDraft : PlantDraft :=
  { name := "Monstera deliciosa"
    commonName := "Swiss Cheese Plant"
    customName := none
    imageUri := "file://plant.jpg"
    confidence := 95
    healthStatus := "healthy"
    healthScore := 88
    diagnosis := "Plant appears healthy"
    careAdvice := ["Water when the top inch of soil feels dry"]
    quickFacts := ⟨"Mexico", "Easy", "Fast", "Toxic to pets", "Bright, indirect light",
                   "Weekly", "40-60%", "65-75°F"⟩
    identificationId := "plant_1700000000000"
    timestamp := "2025-01-01T00:00:00.000Z"
    lastWatered := none
    lastFertilized := none
    notes := none }

/-- A concrete saved record with id `"plant_1"`, used as a test fixture. -/
def samplePlant : SavedPlant :=
  sampleDraft.withIdentity "plant_1" "2025-01-02T00:00:00.000Z"

/-- C1 counterexample: `updatePlant` merges arbitrary fields with no
validation, so updating the stored record with `{confidence: 500}` leaves a
record whose `confidence` is 500, outside `[1, 100]`. -/
theorem update_can_break_score_range :
    ((PlantStorage.updatePlant [samplePlant] "plant_1"
        { PlantUpdate.empty with confidence := some 500 }).2.map
      (fun q => q.confidence)) = [500] ∧
    ¬ ((1 : Int) ≤ 500 ∧ (500 : Int) ≤ 100) := by
  refine ⟨rfl, by norm_num⟩

/-- Every outcome of the numeric normalization is either NaN or an integer
in `[1, 100]`: falsy values give the fallback 50, truthy numeric values are
clamped, and only a truthy value that coerces to NaN escapes as NaN. -/
theorem scoreOf_none_or_range (v : Option Json) :
    scoreOf v = none ∨ ∃ n, scoreOf v = some n ∧ scoreInRange n := by
  match v with
  | none => exact Or.inr ⟨50, rfl, by norm_num [scoreInRange]⟩
  | some j =>
    by_cases ht : j.truthy
    · match hn : toNumber j with
      | none =>
        left
        simp [scoreOf, ht, hn]
      | some m =>
        right
        exact ⟨max 1 (min 100 m), by simp [scoreOf, ht, hn], clamp_mem_range m⟩
    · right
      refine ⟨50, ?_, by norm_num [scoreInRange]⟩
      simp [scoreOf, ht]

/-- C1 amended: for each of `confidence` and `healthScore`, normalization
produces either an integer in `[1, 100]` or NaN — NaN arises from a truthy
value that does not coerce to a number (e.g. an object), and escapes the
claimed range; `savePlant` copies the draft's scores unchanged, so it
preserves the invariant when the draft satisfies it; but `updatePlant`
applies no validation, so the invariant survives an update only when the
scores supplied in the update object are themselves in range. -/
theorem range_invariant_amended :
    (∀ (p : Json) (nowMs : Int) (isoNow : String) (r : AnalysisResult),
      normalizePayload p nowMs isoNow = NormalizeResult.plant r →
      (r.confidence = none ∨ ∃ n, r.confidence = some n ∧ scoreInRange n) ∧
      (r.healthScore = none ∨ ∃ n, r.healthScore = some n ∧ scoreInRange n)) ∧
    NormalizeResult.getConfidence
      (normalizePayload (Json.obj [("confidence", Json.obj [])]) 0 "") = none ∧
    (∀ (plants : List SavedPlant) (draft : PlantDraft) (nowMs : Int) (rand isoNow : String),
      scoreInRange draft.confidence → scoreInRange draft.healthScore →
      (∀ q ∈ plants, scoreInRange q.confidence ∧ scoreInRange q.healthScore) →
      ∀ q ∈ (PlantStorage.savePlant plants draft nowMs rand isoNow).2,
        scoreInRange q.confidence ∧ scoreInRange q.healthScore) ∧
    (∀ (plants : List SavedPlant) (id : String) (u : PlantUpdate),
      (∀ q ∈ plants, scoreInRange q.confidence ∧ scoreInRange q.healthScore) →
      (∀ n, u.confidence = some n → scoreInRange n) →
      (∀ n, u.healthScore = some n → scoreInRange n) →
      ∀ q ∈ (PlantStorage.updatePlant plants id u).2,
        scoreInRange q.confidence ∧ scoreInRange q.healthScore) := by
  refine ⟨?_, rfl, ?_, ?_⟩
  · intro p nowMs isoNow r h
    have hf := plant_branch_fields p nowMs isoNow r h
    constructor
    · rw [hf.2.1]
      exact scoreOf_none_or_range _
    · rw [hf.2.2.1]
      exact scoreOf_none_or_range _
  · intro plants draft nowMs rand isoNow hdc hdh hall q hq
    simp only [PlantStorage.savePlant, List.mem_cons] at hq
    cases hq with
    | inl h => subst h; exact ⟨hdc, hdh⟩
    | inr h => exact hall q h
  · intro plants id u hall hc hh q hq
    unfold PlantStorage.updatePlant at hq
    cases hidx : plants.findIdx? (fun plant => plant.id = id) with
    | none =>
      rw [hidx] at hq
      exact hall q hq
    | some i =>
      rw [hidx] at hq
      simp only at hq
      cases hp : plants[i]? with
      | none =>
        rw [hp] at hq
        exact hall q hq
      | some p =>
        rw [hp] at hq
        simp only at hq
        have hmem := List.mem_or_eq_of_mem_set hq
        cases hmem with
        | inl h => exact hall q h
        | inr h =>
          subst h
          have hpmem : p ∈ plants := List.getElem?_mem hp
          constructor
          · cases huc : u.confidence with
            | none =>
              have : (mergePlant p u).confidence = p.confidence := by
                simp [mergePlant, huc]
              rw [this]
              exact (hall p hpmem).1
            | some n =>
              have : (mergePlant p u).confidence = n := by
                simp [mergePlant, huc]
              rw [this]
              exact hc n huc
          · cases huh : u.healthScore with
            | none =>
              have : (mergePlant p u).healthScore = p.healthScore := by
                simp [mergePlant, huh]
              rw [this]
              exact (hall p hpmem).2
            | some n =>
              have : (mergePlant p u).healthScore = n := by
                simp [mergePlant, huh]
              rw [this]
              exact hh n huh

/-- Witness for the amended C1 at concrete inputs: a defaulted payload
normalizes to the in-range integer 50, and a concrete save keeps the
draft's in-range confidence. -/
theorem range_invariant_amended_witness :
    scoreInRange 50 ∧
    scoreInRange (PlantStorage.savePlant [] sampleDraft 0 "abc" "t").1.confidence ∧
    scoreInRange samplePlant.confidence := by
  refine ⟨?_, ?_, ?_⟩
  · obtain ⟨hd, -⟩ := range_invariant_amended.1 (Json.obj []) 0 "" _ rfl
    rcases hd with h | ⟨n, hn, hr⟩
    · exact Option.noConfusion h
    · have h50 : (50 : Int) = n := Option.some.inj hn
      rw [h50]
      exact hr
  · exact ((range_invariant_amended.2.2.1 [] sampleDraft 0 "abc" "t"
      (by norm_num [sampleDraft, scoreInRange])
      (by norm_num [sampleDraft, scoreInRange])
      (by intro q hq; cases hq))
      _ (by simp [PlantStorage.savePlant])).1
  · exact ((range_invariant_amended.2.2.2 [samplePlant] "no-such-id" PlantUpdate.empty
      (by
        intro q hq
        rw [List.mem_singleton] at hq
        subst hq
        norm_num [samplePlant, sampleDraft, PlantDraft.withIdentity, scoreInRange])
      (fun n h => Option.noConfusion h)
      (fun n h => Option.noConfusion h))
      samplePlant (by decide)).1

/-- C6: save round-trip.  `savePlant` returns the draft completed with the
assigned id (`plant_<now>_<rand>`) and `dateAdded`, prepends it to the
collection (most-recent-first), and `getPlantById` on the resulting
collection with the assigned id returns exactly that record (it sits at the
head, so `find` hits it first even in pathological collections). -/
theorem savePlant_roundtrip (plants : List SavedPlant) (draft : PlantDraft)
    (nowMs : Int) (rand isoNow : String) :
    (PlantStorage.savePlant plants draft nowMs rand isoNow).2
      = (PlantStorage.savePlant plants draft nowMs rand isoNow).1 :: plants ∧
    (PlantStorage.savePlant plants draft nowMs rand isoNow).1
      = draft.withIdentity (mkPlantId nowMs rand) isoNow ∧
    (PlantStorage.savePlant plants draft nowMs rand isoNow).1.id = mkPlantId nowMs rand ∧
    (PlantStorage.savePlant plants draft nowMs rand isoNow).1.dateAdded = isoNow ∧
    (PlantStorage.savePlant plants draft nowMs rand isoNow).1.name = draft.name ∧
    (PlantStorage.savePlant plants draft nowMs rand isoNow).1.commonName = draft.commonName ∧
    (PlantStorage.savePlant plants draft nowMs rand isoNow).1.customName = draft.customName ∧
    (PlantStorage.savePlant plants draft nowMs rand isoNow).1.imageUri = draft.imageUri ∧
    (PlantStorage.savePlant plants draft nowMs rand isoNow).1.confidence = draft.confidence ∧
    (PlantStorage.savePlant plants draft nowMs rand isoNow).1.healthStatus = draft.healthStatus ∧
    (PlantStorage.savePlant plants draft nowMs rand isoNow).1.healthScore = draft.healthScore ∧
    (PlantStorage.savePlant plants draft nowMs rand isoNow).1.diagnosis = draft.diagnosis ∧
    (PlantStorage.savePlant plants draft nowMs rand isoNow).1.careAdvice = draft.careAdvice ∧
    (PlantStorage.savePlant plants draft nowMs rand isoNow).1.quickFacts = draft.quickFacts ∧
    (PlantStorage.savePlant plants draft nowMs rand isoNow).1.identificationId
      = draft.identificationId ∧
    (PlantStorage.savePlant plants draft nowMs rand isoNow).1.timestamp = draft.timestamp ∧
    (PlantStorage.savePlant plants draft nowMs rand isoNow).1.lastWatered = draft.lastWatered ∧
    (PlantStorage.savePlant plants draft nowMs rand isoNow).1.lastFertilized
      = draft.lastFertilized ∧
    (PlantStorage.savePlant plants draft nowMs rand isoNow).1.notes = draft.notes ∧
    PlantStorage.getPlantById (PlantStorage.savePlant plants draft nowMs rand isoNow).2
        (PlantStorage.savePlant plants draft nowMs rand isoNow).1.id
      = some (PlantStorage.savePlant plants draft nowMs rand isoNow).1 := by
  refine ⟨rfl, rfl, rfl, rfl, rfl, rfl, rfl, rfl, rfl, rfl, rfl, rfl, rfl, rfl,
    rfl, rfl, rfl, rfl, rfl, ?_⟩
  simp [PlantStorage.savePlant, PlantStorage.getPlantById, List.find?_cons_of_pos]

/-- C9 counterexample: on a corrupt blob (read fault or `JSON.parse`
failure) `getAllPlants` returns the *successful* empty collection — the
catch block swallows the error — so it does not fail with
`PersistenceError` as claimed. -/
theorem getAllPlants_swallows_fault :
    PlantStorage.getAllPlants StoredBlob.corrupt = Except.ok [] ∧
    Except.ok ([] : List SavedPlant)
      ≠ Except.error PersistenceError.persistenceError := by
  exact ⟨rfl, by simp⟩

/-- C9 amended: `getAllPlants` returns the empty collection when nothing
has been persisted yet, and *also* returns the empty collection (a success,
not a `PersistenceError`) when the read or deserialization faults, because
the catch block returns `[]`; it never propagates an error. -/
theorem getAllPlants_never_fails (blob : StoredBlob) :
    PlantStorage.getAllPlants StoredBlob.absent = Except.ok [] ∧
    PlantStorage.getAllPlants StoredBlob.corrupt = Except.ok [] ∧
    ∃ ps, PlantStorage.getAllPlants blob = Except.ok ps := by
  refine ⟨rfl, rfl, ?_⟩
  cases blob with
  | absent => exact ⟨[], rfl⟩
  | corrupt => exact ⟨[], rfl⟩
  | stored ps => exact ⟨ps, rfl⟩

/-- C10: the stats buckets overlap.  A single record with
`healthStatus = "poor"` but `healthScore = 85` is counted both as healthy
(score ≥ 80) and as needing care (status "poor"), so
`healthyPlants + plantsNeedingCare` exceeds `totalPlants`. -/
theorem stats_buckets_overlap :
    (PlantStorage.getPlantStats
        [{ samplePlant with healthStatus := "poor", healthScore := 85 }] 0).totalPlants = 1 ∧
    (PlantStorage.getPlantStats
        [{ samplePlant with healthStatus := "poor", healthScore := 85 }] 0).healthyPlants = 1 ∧
    (PlantStorage.getPlantStats
        [{ samplePlant with healthStatus := "poor", healthScore := 85 }] 0).plantsNeedingCare = 1 ∧
    1 + 1 > 1 := by
  refine ⟨rfl, ?_, ?_, by norm_num⟩
  · decide
  · decide

/-- Spec-side healthy-bucket predicate: healthStatus "healthy"
case-insensitively, or healthScore at least 80. -/
abbrev specHealthy (p : SavedPlant) : Prop :=
  jsToLower p.healthStatus = "healthy" ∨ 80 ≤ p.healthScore

/-- Spec-side needing-care predicate: healthStatus "poor"
case-insensitively, or healthScore below 60. -/
abbrev specNeedingCare (p : SavedPlant) : Prop :=
  jsToLower p.healthStatus = "poor" ∨ p.healthScore < 60

/-- Spec-side needs-water predicate: `lastWatered` absent, or at least 7
days (in milliseconds) before `now`. -/
def specNeedsWater (now : Int) (p : SavedPlant) : Bool :=
  match p.lastWatered with
  | none => true
  | some t => 7 * (1000 * 60 * 60 * 24) ≤ now - t

/-- `Math.floor` of an exact day quotient is at least 7 exactly when the
millisecond difference is at least 7 days. -/
theorem needsWater_eq_spec (now : Int) (p : SavedPlant) :
    needsWater now p = specNeedsWater now p := by
  unfold needsWater specNeedsWater
  cases p.lastWatered with
  | none => rfl
  | some t =>
    simp only [decide_eq_decide, ge_iff_le]
    rw [Int.fdiv_eq_ediv _ (by norm_num), Int.le_ediv_iff_mul_le (by norm_num)]

/-- Summing `healthScore` by `reduce`/`foldl` is summing the mapped list. -/
theorem foldl_add_healthScore (l : List SavedPlant) (a : Int) :
    l.foldl (fun sum plant => sum + plant.healthScore) a
      = a + (l.map (fun plant => plant.healthScore)).sum := by
  induction l generalizing a with
  | nil => simp
  | cons p rest ih =>
    simp only [List.foldl_cons, List.map_cons, List.sum_cons, ih]
    ring

/-- C5: the five statistics are exactly as specified — `totalPlants` is the
collection size; `healthyPlants` counts "healthy" (case-insensitive) or
score ≥ 80; `plantsNeedingCare` counts "poor" (case-insensitive) or
score < 60; `plantsNeedingWater` counts absent `lastWatered` or at least 7
days since; `averageHealthScore` is the mean healthScore rounded to the
nearest integer (halves up, as `Math.round`); and on the empty collection
all five are 0 (no division by zero occurs). -/
theorem getPlantStats_spec (plants : List SavedPlant) (now : Int) :
    (PlantStorage.getPlantStats plants now).totalPlants = plants.length ∧
    (PlantStorage.getPlantStats plants now).healthyPlants
      = plants.countP (fun p => decide (specHealthy p)) ∧
    (PlantStorage.getPlantStats plants now).plantsNeedingCare
      = plants.countP (fun p => decide (specNeedingCare p)) ∧
    (PlantStorage.getPlantStats plants now).plantsNeedingWater
      = plants.countP (specNeedsWater now) ∧
    (PlantStorage.getPlantStats plants now).averageHealthScore
      = (if plants.length = 0 then 0
         else round ((((plants.map (fun p => p.healthScore)).sum : Int) : ℚ) / (plants.length : ℚ))) ∧
    (plants = [] → PlantStorage.getPlantStats plants now = ⟨0, 0, 0, 0, 0⟩) := by
  by_cases hz : plants = []
  · subst hz
    exact ⟨rfl, rfl, rfl, rfl, rfl, fun _ => rfl⟩
  · have hlen : ¬ plants.length = 0 := by
      simpa [List.length_eq_zero] using hz
    refine ⟨?_, ?_, ?_, ?_, ?_, fun h => absurd h hz⟩
    · unfold PlantStorage.getPlantStats
      rw [if_neg hlen]
    · unfold PlantStorage.getPlantStats
      rw [if_neg hlen]
      simp only [List.countP_eq_length_filter]
      congr 1
      apply List.filter_congr
      intro p _
      simp [specHealthy]
    · unfold PlantStorage.getPlantStats
      rw [if_neg hlen]
      simp only [List.countP_eq_length_filter]
      congr 1
      apply List.filter_congr
      intro p _
      simp [specNeedingCare]
    · unfold PlantStorage.getPlantStats
      rw [if_neg hlen]
      simp only [List.countP_eq_length_filter]
      congr 1
      apply List.filter_congr
      intro p _
      exact needsWater_eq_spec now p
    · unfold PlantStorage.getPlantStats
      rw [if_neg hlen, if_neg hlen]
      simp only [jsRound_eq_round, foldl_add_healthScore, zero_add]

/-- Witness for C5: the empty collection yields all-zero statistics. -/
theorem getPlantStats_spec_witness :
    PlantStorage.getPlantStats [] 0 = ⟨0, 0, 0, 0, 0⟩ :=
  (getPlantStats_spec [] 0).2.2.2.2.2 rfl

/-- C7: the partial-update frame property.  When no record has the given
id, `updatePlant` returns "not found" and the collection is untouched.
When a record is found, exactly that record is replaced in place by the
spread merge, every other position is unchanged, and the merge changes
exactly the fields present in the update object, leaving every absent
field at its existing value. -/
theorem updatePlant_frame (plants : List SavedPlant) (id : String) (u : PlantUpdate) :
    (PlantStorage.getPlantById plants id = none →
      PlantStorage.updatePlant plants id u = (none, plants)) ∧
    (∀ i p, plants.findIdx? (fun plant => plant.id = id) = some i → plants[i]? = some p →
      PlantStorage.updatePlant plants id u
        = (some (mergePlant p u), plants.set i (mergePlant p u)) ∧
      ∀ j, j ≠ i → (plants.set i (mergePlant p u))[j]? = plants[j]?) ∧
    (∀ (p : SavedPlant),
      (u.id = none → (mergePlant p u).id = p.id) ∧
      (∀ v, u.id = some v → (mergePlant p u).id = v) ∧
      (u.name = none → (mergePlant p u).name = p.name) ∧
      (∀ v, u.name = some v → (mergePlant p u).name = v) ∧
      (u.commonName = none → (mergePlant p u).commonName = p.commonName) ∧
      (∀ v, u.commonName = some v → (mergePlant p u).commonName = v) ∧
      (u.customName = none → (mergePlant p u).customName = p.customName) ∧
      (∀ v, u.customName = some v → (mergePlant p u).customName = v) ∧
      (u.imageUri = none → (mergePlant p u).imageUri = p.imageUri) ∧
      (∀ v, u.imageUri = some v → (mergePlant p u).imageUri = v) ∧
      (u.confidence = none → (mergePlant p u).confidence = p.confidence) ∧
      (∀ v, u.confidence = some v → (mergePlant p u).confidence = v) ∧
      (u.healthStatus = none → (mergePlant p u).healthStatus = p.healthStatus) ∧
      (∀ v, u.healthStatus = some v → (mergePlant p u).healthStatus = v) ∧
      (u.healthScore = none → (mergePlant p u).healthScore = p.healthScore) ∧
      (∀ v, u.healthScore = some v → (mergePlant p u).healthScore = v) ∧
      (u.diagnosis = none → (mergePlant p u).diagnosis = p.diagnosis) ∧
      (∀ v, u.diagnosis = some v → (mergePlant p u).diagnosis = v) ∧
      (u.careAdvice = none → (mergePlant p u).careAdvice = p.careAdvice) ∧
      (∀ v, u.careAdvice = some v → (mergePlant p u).careAdvice = v) ∧
      (u.quickFacts = none → (mergePlant p u).quickFacts = p.quickFacts) ∧
      (∀ v, u.quickFacts = some v → (mergePlant p u).quickFacts = v) ∧
      (u.identificationId = none → (mergePlant p u).identificationId = p.identificationId) ∧
      (∀ v, u.identificationId = some v → (mergePlant p u).identificationId = v) ∧
      (u.timestamp = none → (mergePlant p u).timestamp = p.timestamp) ∧
      (∀ v, u.timestamp = some v → (mergePlant p u).timestamp = v) ∧
      (u.dateAdded = none → (mergePlant p u).dateAdded = p.dateAdded) ∧
      (∀ v, u.dateAdded = some v → (mergePlant p u).dateAdded = v) ∧
      (u.lastWatered = none → (mergePlant p u).lastWatered = p.lastWatered) ∧
      (∀ v, u.lastWatered = some v → (mergePlant p u).lastWatered = v) ∧
      (u.lastFertilized = none → (mergePlant p u).lastFertilized = p.lastFertilized) ∧
      (∀ v, u.lastFertilized = some v → (mergePlant p u).lastFertilized = v) ∧
      (u.notes = none → (mergePlant p u).notes = p.notes) ∧
      (∀ v, u.notes = some v → (mergePlant p u).notes = v)) := by
  refine ⟨?_, ?_, ?_⟩
  · intro hnone
    have hidx : plants.findIdx? (fun plant => plant.id = id) = none := by
      rw [List.findIdx?_eq_none_iff]
      intro x hx
      have hx2 := List.find?_eq_none.mp hnone x hx
      simpa using hx2
    unfold PlantStorage.updatePlant
    rw [hidx]
  · intro i p hidx hp
    constructor
    · unfold PlantStorage.updatePlant
      rw [hidx]
      simp only
      rw [hp]
    · intro j hj
      exact List.getElem?_set_ne (fun h => hj h.symm)
  · intro p
    exact ⟨fun h => by simp [mergePlant, h],
      fun v h => by simp [mergePlant, h],
      fun h => by simp [mergePlant, h],
      fun v h => by simp [mergePlant, h],
      fun h => by simp [mergePlant, h],
      fun v h => by simp [mergePlant, h],
      fun h => by simp [mergePlant, h],
      fun v h => by simp [mergePlant, h],
      fun h => by simp [mergePlant, h],
      fun v h => by simp [mergePlant, h],
      fun h => by simp [mergePlant, h],
      fun v h => by simp [mergePlant, h],
      fun h => by simp [mergePlant, h],
      fun v h => by simp [mergePlant, h],
      fun h => by simp [mergePlant, h],
      fun v h => by simp [mergePlant, h],
      fun h => by simp [mergePlant, h],
      fun v h => by simp [mergePlant, h],
      fun h => by simp [mergePlant, h],
      fun v h => by simp [mergePlant, h],
      fun h => by simp [mergePlant, h],
      fun v h => by simp [mergePlant, h],
      fun h => by simp [mergePlant, h],
      fun v h => by simp [mergePlant, h],
      fun h => by simp [mergePlant, h],
      fun v h => by simp [mergePlant, h],
      fun h => by simp [mergePlant, h],
      fun v h => by simp [mergePlant, h],
      fun h => by simp [mergePlant, h],
      fun v h => by simp [mergePlant, h],
      fun h => by simp [mergePlant, h],
      fun v h => by simp [mergePlant, h],
      fun h => by simp [mergePlant, h],
      fun v h => by simp [mergePlant, h]⟩

/-- A concrete update object setting only `lastWatered`. -/
def wateringUpdate : PlantUpdate :=
  { PlantUpdate.empty with lastWatered := some (some 1700000000000) }

/-- Witness for C7 at concrete inputs: updating only `lastWatered` on the
stored sample plant sets it and leaves `notes` (and the rest of the record)
alone; updating a missing id changes nothing. -/
theorem updatePlant_frame_witness :
    PlantStorage.updatePlant [samplePlant] "plant_1" wateringUpdate
      = (some (mergePlant samplePlant wateringUpdate),
         [mergePlant samplePlant wateringUpdate]) ∧
    (mergePlant samplePlant wateringUpdate).lastWatered = some 1700000000000 ∧
    (mergePlant samplePlant wateringUpdate).notes = samplePlant.notes ∧
    PlantStorage.updatePlant [samplePlant] "missing-id" PlantUpdate.empty
      = (none, [samplePlant]) := by
  obtain ⟨h1, h2, h3⟩ := updatePlant_frame [samplePlant] "plant_1" wateringUpdate
  obtain ⟨heq, -⟩ := h2 0 samplePlant (by decide) rfl
  obtain ⟨-, -, -, -, -, -, -, -, -, -, -, -, -, -, -, -, -, -, -, -, -, -, -, -, -,
    -, -, -, -, hlwSome, -, -, hnotesNone, -⟩ := h3 samplePlant
  refine ⟨?_, ?_, ?_, ?_⟩
  · simpa using heq
  · exact hlwSome (some 1700000000000) rfl
  · exact hnotesNone rfl
  · exact (updatePlant_frame [samplePlant] "missing-id" PlantUpdate.empty).1 (by decide)

/-- Spec-side notion for C4: the raw text contains an opening brace with a
closing brace somewhere after it (exactly when the greedy regex
`/\{[\s\S]*\}/` can match). -/
def hasBracePair : List Char → Bool
  | [] => false
  | c :: rest => if c = '\x7b' then rest.any (fun d => d = '\x7d') else hasBracePair rest

/-- `hasBracePair` looks for a closing brace after the first opening one. -/
theorem hasBracePair_eq (cs : List Char) :
    hasBracePair cs
      = (cs.dropWhile (fun c => c ≠ '\x7b')).any (fun d => d = '\x7d') := by
  induction cs with
  | nil => rfl
  | cons c rest ih =>
    by_cases hc : c = '\x7b'
    · subst hc
      simp [hasBracePair, List.dropWhile_cons]
    · simp [hasBracePair, List.dropWhile_cons, hc, ih]

/-- The regex fails to match exactly when no closing brace follows the
first opening brace. -/
theorem braceSpan_eq_none_iff (raw : String) :
    braceSpan raw = none ↔ hasBracePair raw.toList = false := by
  rw [hasBracePair_eq]
  unfold braceSpan
  generalize raw.toList.dropWhile (fun c => c ≠ '\x7b') = L
  cases hU : (L.reverse.dropWhile (fun c => c ≠ '\x7d')).reverse with
  | nil =>
    simp only [List.reverse_eq_nil_iff, List.dropWhile_eq_nil_iff] at hU
    constructor
    · intro _
      rw [List.any_eq_false]
      intro x hx
      have hx2 := hU x (List.mem_reverse.mpr hx)
      simpa using hx2
    · intro _
      rfl
  | cons c cs =>
    constructor
    · intro h
      exact Option.noConfusion h
    · intro h
      exfalso
      have hne : L.reverse.dropWhile (fun c => c ≠ '\x7d') ≠ [] := by
        intro h0
        rw [h0] at hU
        exact List.noConfusion hU
      rw [Ne, List.dropWhile_eq_nil_iff] at hne
      push_neg at hne
      obtain ⟨x, hxmem, hxp⟩ := hne
      rw [List.any_eq_false] at h
      have hxL : x ∈ L := List.mem_reverse.mp hxmem
      have hx3 := h x hxL
      simp at hxp hx3
      exact hx3 (by simpa using hxp)

/-- C4: extraction fails closed exactly as specified.  When the raw text
has no `{`-before-`}` pair, the regex cannot match and extraction yields
the hard MalformedResponse failure; when it has one, the brace span (first
`{` to last `}`) exists, and extraction returns exactly what `JSON.parse`
makes of that span — the parse failure propagates as the same hard failure,
and a successful parse hands the object onward. -/
theorem extractJson_spec (parse : String → Option Json) (raw : String) :
    (hasBracePair raw.toList = false → extractJson parse raw = none) ∧
    (hasBracePair raw.toList = true → ∃ s, braceSpan raw = some s) ∧
    (∀ s, braceSpan raw = some s →
      (parse s = none → extractJson parse raw = none) ∧
      (∀ j, parse s = some j → extractJson parse raw = some j)) := by
  refine ⟨?_, ?_, ?_⟩
  · intro h
    unfold extractJson
    rw [(braceSpan_eq_none_iff raw).mpr h]
  · intro h
    cases hs : braceSpan raw with
    | none =>
      have := (braceSpan_eq_none_iff raw).mp hs
      rw [this] at h
      exact Bool.noConfusion h
    | some s => exact ⟨s, rfl⟩
  · intro s hs
    constructor
    · intro hp
      unfold extractJson
      rw [hs]
      exact hp
    · intro j hp
      unfold extractJson
      rw [hs]
      exact hp

/-- Witness for C4 at concrete inputs: prose with no braces fails; with a
brace span present, extraction returns exactly the parser's verdict on the
span `"{abc}"` — failure stays failure, success returns the object. -/
theorem extractJson_spec_witness :
    extractJson (fun _ => none) "no braces at all" = none ∧
    extractJson (fun s => some (Json.str s)) "xx{abc}yy" = some (Json.str "{abc}") ∧
    extractJson (fun _ => none) "xx{abc}yy" = none := by
  refine ⟨?_, ?_, ?_⟩
  · exact (extractJson_spec (fun _ => none) "no braces at all").1 (by decide)
  · exact ((extractJson_spec (fun s => some (Json.str s)) "xx{abc}yy").2.2
      "{abc}" (by decide)).2 (Json.str "{abc}") rfl
  · exact ((extractJson_spec (fun _ => none) "xx{abc}yy").2.2
      "{abc}" (by decide)).1 rfl
